import Mathlib

/-!
Verification of the caller-driven JSON Builder / Reader state machines
(rsms/go-json) against their natural-language specification.

The Go source is shallowly embedded: byte buffers become `List Nat`
(each element a byte value < 256), Go `int`/`int64` become `Int`,
Go `uint64` becomes `Nat`, and each method becomes a pure Lean function
from the receiver state to the updated state.  The external
`encoding/json` tokenizer driven by the Reader is not part of this
repository; per the spec it is a pull-based primitive token stream with
an end-of-container lookahead, and is modelled as a list of tokens.
-/

/-- Byte strings (Go `[]byte` / `bytes.Buffer` contents): each entry is a byte value. -/
abbrev Bytes := List Nat

/-- Go `int` / `int64` values (the target is 64-bit, so `intSize = 64`). -/
abbrev GoInt := Int

/-- UTF-8 encoding of one unicode scalar value, as Go produces for `[]byte(string)`. -/
def utf8EncodeChar (c : Nat) : Bytes :=
  if c < 0x80 then [c]
  else if c < 0x800 then [0xC0 + c / 0x40, 0x80 + c % 0x40]
  else if c < 0x10000 then
    [0xE0 + c / 0x1000, 0x80 + c / 0x40 % 0x40, 0x80 + c % 0x40]
  else
    [0xF0 + c / 0x40000, 0x80 + c / 0x1000 % 0x40, 0x80 + c / 0x40 % 0x40, 0x80 + c % 0x40]

/-- Bytes of a Go string literal (Go strings hold UTF-8 bytes). -/
def strBytes (s : String) : Bytes :=
  s.data.foldr (fun c acc => utf8EncodeChar c.toNat ++ acc) []

/-- Source: `hexdigits = "0123456789abcdef"`; `hexdigit n` is the byte `hexdigits[n]`. -/
def hexdigit (n : Nat) : Nat :=
  if n < 10 then 48 + n else 87 + n

/-- Source: the `jsonSafeSet` table — true for every ASCII byte that can appear in a
JSON string without escaping: all of 0x20..0x7f except `"` (34) and `\` (92). -/
def jsonSafeSet (b : Nat) : Bool :=
  32 ≤ b && b ≤ 127 && b != 34 && b != 92

/-- Lower bound for the second byte of a multi-byte UTF-8 sequence,
per Go `unicode/utf8`'s accept ranges (0xE0 and 0xF0 have raised bounds). -/
def utf8lo (b0 : Nat) : Nat :=
  if b0 = 0xE0 then 0xA0 else if b0 = 0xF0 then 0x90 else 0x80

/-- Upper bound for the second byte of a multi-byte UTF-8 sequence,
per Go `unicode/utf8`'s accept ranges (0xED and 0xF4 have lowered bounds). -/
def utf8hi (b0 : Nat) : Nat :=
  if b0 = 0xED then 0x9F else if b0 = 0xF4 then 0x8F else 0xBF

/-- Go `unicode/utf8.DecodeRune` on a byte list: returns (rune, size).
Every malformed, short, overlong, surrogate or out-of-range sequence yields
(RuneError = 0xFFFD, 1); the empty input yields (RuneError, 0). -/
def decodeRune (s : Bytes) : Nat × Nat :=
  match s with
  | [] => (0xFFFD, 0)
  | b0 :: t =>
    if b0 < 0x80 then (b0, 1)
    else if b0 < 0xC2 then (0xFFFD, 1)
    else if b0 < 0xE0 then
      match t with
      | b1 :: _ =>
        if 0x80 ≤ b1 ∧ b1 ≤ 0xBF then ((b0 % 0x20) * 0x40 + b1 % 0x40, 2)
        else (0xFFFD, 1)
      | [] => (0xFFFD, 1)
    else if b0 < 0xF0 then
      match t with
      | b1 :: b2 :: _ =>
        if (utf8lo b0 ≤ b1 ∧ b1 ≤ utf8hi b0) ∧ (0x80 ≤ b2 ∧ b2 ≤ 0xBF) then
          ((b0 % 0x10) * 0x1000 + (b1 % 0x40) * 0x40 + b2 % 0x40, 3)
        else (0xFFFD, 1)
      | _ => (0xFFFD, 1)
    else if b0 < 0xF5 then
      match t with
      | b1 :: b2 :: b3 :: _ =>
        if (utf8lo b0 ≤ b1 ∧ b1 ≤ utf8hi b0) ∧ (0x80 ≤ b2 ∧ b2 ≤ 0xBF) ∧
            (0x80 ≤ b3 ∧ b3 ≤ 0xBF) then
          ((b0 % 8) * 0x40000 + (b1 % 0x40) * 0x1000 + (b2 % 0x40) * 0x40 + b3 % 0x40, 4)
        else (0xFFFD, 1)
      | _ => (0xFFFD, 1)
    else (0xFFFD, 1)

/-- Escape loop of `Builder.WriteJsonString` (source lines 369-434), producing the
bytes written between the surrounding quotes.  The Go loop copies safe runs as a
block; byte-for-byte the output is the per-unit concatenation embedded here.
`fuel` bounds the recursion by the input length (each step consumes ≥ 1 byte). -/
def escapeJsonAux : Nat → Bytes → Bytes
  | 0, _ => []
  | _ + 1, [] => []
  | fuel + 1, b :: rest =>
    if b < 0x80 then
      (if jsonSafeSet b then [b]
       else if b = 34 ∨ b = 92 then [92, b]
       else if b = 10 then [92, 110]          -- \n
       else if b = 13 then [92, 114]          -- \r
       else if b = 9 then [92, 116]           -- \t
       else [92, 117, 48, 48, hexdigit (b / 16), hexdigit (b % 16)]) ++
      escapeJsonAux fuel rest
    else
      let c := (decodeRune (b :: rest)).1
      let size := (decodeRune (b :: rest)).2
      if c = 0xFFFD ∧ size = 1 then
        -- invalid UTF-8: write �, advance one byte
        [92, 117, 102, 102, 102, 100] ++ escapeJsonAux fuel rest
      else if c = 0x2028 ∨ c = 0x2029 then
        -- U+2028 / U+2029: write \u202X
        [92, 117, 50, 48, 50, hexdigit (c % 16)] ++ escapeJsonAux fuel ((b :: rest).drop size)
      else
        (b :: rest).take size ++ escapeJsonAux fuel ((b :: rest).drop size)

/-- Bytes written by `Builder.WriteJsonString` between the quotes. -/
def escapeJson (s : Bytes) : Bytes :=
  escapeJsonAux s.length s

/-- Decimal digits of `n` (Go `strconv.FormatUint(n, 10)`), most significant first.
`fuel` bounds the recursion; `n + 1` always suffices since the digit count of `n`
is at most `n + 1`. -/
def natDigitsAux : Nat → Nat → Bytes
  | 0, _ => []
  | fuel + 1, n =>
    if n < 10 then [48 + n]
    else natDigitsAux fuel (n / 10) ++ [48 + n % 10]

/-- Go `strconv.FormatUint(n, 10)` as bytes. -/
def formatUint (n : Nat) : Bytes :=
  natDigitsAux (n + 1) n

/-- Go `strconv.FormatInt(v, 10)` as bytes (also the bytes of `fmt.Fprintf("%d", v)`). -/
def formatInt (v : Int) : Bytes :=
  if v < 0 then 45 :: formatUint (-v).toNat else formatUint v.toNat

/-- Source `builderState`: most recently built thing. -/
inductive BuilderState
  | init   -- builderInit
  | obj    -- builderObj: just wrote `\x7b` or `[`
  | key    -- builderKey: just wrote a key and its terminator
  | value  -- builderValue: just wrote some value
deriving DecidableEq

/-- The `Builder` struct (source lines 66-80): output buffer, sticky first error,
pretty-printing configuration, the state machine state and the nesting depth.
The `scratch` buffer only affects allocation, never output bytes, and is omitted. -/
structure Builder where
  out : Bytes
  err : Option String
  indent : Bytes
  keyTerm : Option Bytes   -- none models the Go nil slice
  state : BuilderState
  nestdepth : Int

/-- The Go zero value `var b Builder`. -/
def Builder.empty : Builder :=
  ⟨[], none, [], none, .init, 0⟩

/-- Append bytes to the output buffer (`e.Write` / `e.WriteByte` on the embedded
`bytes.Buffer`). -/
def wr (e : Builder) (bs : Bytes) : Builder :=
  { e with out := e.out ++ bs }

/-- Source `Builder.setError`: record `err` only if no error is recorded yet. -/
def Builder.setError (e : Builder) (msg : String) : Builder :=
  if e.err = none then { e with err := some msg } else e

/-- Source `Builder.writeNewLine`: a newline then `nestdepth` copies of `Indent`
(the Go loop `for i := 0; i < e.nestdepth; i++` runs zero times when the depth
is not positive, which `Int.toNat` reproduces). -/
def Builder.writeNewLine (e : Builder) : Builder :=
  wr e (10 :: (List.replicate e.nestdepth.toNat e.indent).flatten)

/-- Source `Builder.newLine`: conditional `writeNewLine`. -/
def Builder.newLine (e : Builder) : Builder :=
  if 0 < e.nestdepth ∧ e.indent ≠ [] then e.writeNewLine else e

/-- Source `Builder.startChunk`: punctuation before a chunk, then set the state. -/
def Builder.startChunk (e : Builder) (nextstate : BuilderState) : Builder :=
  let e :=
    match e.state with
    | .value => Builder.newLine (wr e [44])   -- comma, then conditional newline
    | .obj => if e.indent ≠ [] then e.writeNewLine else e
    | .init =>
      if e.keyTerm = none then
        { e with keyTerm := some (if e.indent ≠ [] then [58, 32] else [58]) }
      else e
    | .key => e
  { e with state := nextstate }

/-- Source `Builder.Reset`: clears the buffer, the error, the state and the depth;
`Indent` (and `KeyTerm`, which `Reset` does not touch) are preserved. -/
def Builder.Reset (e : Builder) : Builder :=
  { e with out := [], err := none, state := .init, nestdepth := 0 }

/-- Source `Builder.WriteJsonString`: opening quote, escaped bytes, closing quote. -/
def Builder.WriteJsonString (e : Builder) (s : Bytes) : Builder :=
  wr e (34 :: escapeJson s ++ [34])

/-- Source `Builder.KeyBytes`: startChunk(key), the quoted escaped key, then the
key terminator (read after `startChunk`, which initializes it on first use). -/
def Builder.KeyBytes (e : Builder) (k : Bytes) : Builder :=
  let e := e.startChunk .key
  let e := e.WriteJsonString k
  wr e (e.keyTerm.getD [])

/-- Source `Builder.Key`: `KeyBytes([]byte(k))`. -/
def Builder.Key (e : Builder) (k : String) : Builder :=
  e.KeyBytes (strBytes k)

/-- Source `Builder.Start`: startChunk(obj), write the opening byte, increment depth. -/
def Builder.Start (e : Builder) (kind : Nat) : Builder :=
  let e := e.startChunk .obj
  let e := wr e [kind]
  { e with nestdepth := e.nestdepth + 1 }

/-- Source `Builder.End`: decrement depth first; if the state is `key` the source
assigns `e.Err = fmt.Errorf("key without value")` DIRECTLY (not via `setError`);
otherwise maybe write a newline; then the closing byte; state becomes `value`. -/
def Builder.End (e : Builder) (kind : Nat) : Builder :=
  let e := { e with nestdepth := e.nestdepth - 1 }
  let e :=
    if e.state = .key then { e with err := some "key without value" }
    else if e.state ≠ .obj ∧ e.indent ≠ [] then e.writeNewLine
    else e
  let e := wr e [kind]
  { e with state := .value }

/-- Source `Builder.Raw`: startChunk(value) then the bytes verbatim. -/
def Builder.Raw (e : Builder) (b : Bytes) : Builder :=
  wr (e.startChunk .value) b

/-- Source `Builder.Int`: wide bit sizes are written as a quoted decimal string,
narrow ones as the bare decimal (`fmt.Fprintf(e, "%d", v)`). -/
def Builder.Int (e : Builder) (v : GoInt) (bitsize : GoInt) : Builder :=
  let e := e.startChunk .value
  if bitsize > 32 then e.WriteJsonString (formatInt v)
  else wr e (formatInt v)

/-- Source `Builder.Uint`: same rule on the unsigned path. -/
def Builder.Uint (e : Builder) (v : Nat) (bitsize : GoInt) : Builder :=
  let e := e.startChunk .value
  if bitsize > 32 then e.WriteJsonString (formatUint v)
  else wr e (formatUint v)

/-- The non-finite `float64` arguments (`math.IsNaN` / `math.IsInf`). -/
inductive NonfiniteFloat
  | nan
  | posInf
  | negInf
deriving DecidableEq

/-- The name `strconv.FormatFloat` / `strconv.AppendFloat` print for a non-finite
value, independent of the format verb and bit size. -/
def nfName : NonfiniteFloat → String
  | .nan => "NaN"
  | .posInf => "+Inf"
  | .negInf => "-Inf"

/-- Source `Builder.Float` restricted to non-finite arguments: `startChunk(value)`;
`setError` with the message naming the value; then the bytes `AppendFloat`
produces for it — which is exactly the value's name, whatever `fmt` byte the
threshold comparisons selected (the `e-0X` cleanup never matches these names).
Finite arguments go through IEEE-754 comparisons and shortest-decimal formatting
and are not embedded.  `bits` only affects the ignored `fmt` selection. -/
def Builder.FloatNonfinite (e : Builder) (f : NonfiniteFloat) (bits : GoInt) : Builder :=
  let e := e.startChunk .value
  let e := e.setError ("unsupported float64 value " ++ nfName f)
  wr e (strBytes (nfName f))

/-- Primitive tokens of the external tokenizer (`encoding/json.Token` as returned
by `Decoder.Token`): delimiters, unescaped strings, numbers, bools and null.
Modelled from the spec: the tokenizer is an external collaborator providing a
pull-based primitive token stream over these kinds; numeric payloads (Go
`float64`) are modelled as integers, which no settled claim depends on. -/
inductive JToken
  | delim (d : Nat)       -- one of the bytes of `\x7b \x7d [ ]`
  | str (s : String)
  | num (v : Int)
  | boolTok (b : Bool)
  | nullTok
deriving DecidableEq

/-- The `Reader` struct (source lines 12-18): the decoder (modelled as the list of
tokens not yet pulled), the sticky first error, the most recently parsed token,
the delimiter stack and the current (top) delimiter.  `panicked` records an
out-of-range index into the delimiter stack, which would panic in Go. -/
structure Reader where
  toks : List JToken
  err : Option String
  tok : Option JToken
  delimstack : List Nat
  delim : Nat
  panicked : Bool
deriving DecidableEq

/-- Source `NewReader`: a fresh reader over a token stream; every other field is
the Go zero value (`delim = json.Delim(0)`). -/
def Reader.fresh (ts : List JToken) : Reader :=
  ⟨ts, none, none, [], 0, false⟩

/-- Source `Reader.Reset`: installs a new decoder over `ts` and truncates the
delimiter stack to length zero.  It does NOT touch `err`, `tok` or `delim`. -/
def Reader.Reset (c : Reader) (ts : List JToken) : Reader :=
  { c with toks := ts, delimstack := [] }

/-- Source `Reader.setError`: sticky — only records `msg` when no error is set.
(The source additionally rewrites `strconv.NumError` syntax errors into an
"expected number" message; that branch belongs to the numeric pulls, whose
`strconv` calls are not embedded, and is the identity on every other error.) -/
def Reader.setError (c : Reader) (msg : String) : Reader :=
  if c.err = none then { c with err := some msg } else c

/-- The string `fmt` produces for the last token in `Reader.errExpected`:
a delimiter prints as its character (`fmt.Sprint(json.Delim)`), any other token
prints as its Go type name (`%T`), and a nil token as `<nil>`. -/
def tokTypeDesc : Option JToken → String
  | some (.delim d) => String.mk [Char.ofNat d]
  | some (.str _) => "string"
  | some (.num _) => "float64"
  | some (.boolTok _) => "bool"
  | some .nullTok => "<nil>"
  | none => "<nil>"

/-- Source `Reader.errExpected`: the diagnostic message (pure, no state change).
The source suffixes " at offset N" using the external decoder's byte-level
`InputOffset`, which the token-level model does not carry; no claim depends on
the offset. -/
def Reader.errExpected (c : Reader) (expected : String) : String :=
  "expected " ++ expected ++ " but got " ++ tokTypeDesc c.tok

/-- Source `Reader.setErrorExpected`: `setError(errExpected(expected))`. -/
def Reader.setErrorExpected (c : Reader) (expected : String) : Reader :=
  c.setError (c.errExpected expected)

/-- Source `Reader.next`: pull one token, remember it in `tok`, and record the
decoder's error (io.EOF at end of input) via `setError`. -/
def Reader.next (c : Reader) : Option JToken × Reader :=
  match c.toks with
  | [] => (none, Reader.setError { c with tok := none } "EOF")
  | t :: rest => (some t, { c with toks := rest, tok := some t })

/-- The external decoder's lookahead `Decoder.More`.  Modelled from the spec:
reports whether the current container has another element, i.e. whether the next
token exists and is not a closing delimiter. -/
def Reader.dMore (c : Reader) : Bool :=
  match c.toks with
  | .delim d :: _ => !(d == 93 || d == 125)
  | _ :: _ => true
  | [] => false

/-- Source `Reader.Key`: only when the decoder reports another element does it
pull a token; a string token is returned as is, any other pulled token sets the
"expected key" error; with no element pending it just returns "". -/
def Reader.Key (c : Reader) : String × Reader :=
  if c.dMore then
    match c.next with
    | (some (.str s), c1) => (s, c1)
    | (_, c1) => ("", c1.setErrorExpected "key")
  else ("", c)

/-- Source `Reader.pushDelim`: pull a token; if it is not the wanted opening
delimiter, set the "expected" error and fail; otherwise push the previous
current delimiter and make `d` current. -/
def Reader.pushDelim (c : Reader) (d : Nat) : Bool × Reader :=
  match c.next with
  | (t, c1) =>
    if t = some (.delim d) then
      (true, { c1 with delimstack := c1.delimstack ++ [c1.delim], delim := d })
    else
      (false, c1.setErrorExpected (String.mk [Char.ofNat d]))

/-- Source `Reader.popDelim`: pull the closing delimiter.  On a delimiter token it
computes `expect := d - 2` (mapping a closer to its opener) and compares it with
the current delimiter; on mismatch the source calls `c.errExpected(...)` but
DISCARDS the returned error (no `setError`), so nothing is recorded.  It then
pops the stack unconditionally — indexing `delimstack[len-1]`, which panics on an
empty stack.  A non-delimiter token leaves the stack alone. -/
def Reader.popDelim (c : Reader) : Reader :=
  match c.next with
  | (some (.delim _), c1) =>
    match c1.delimstack.getLast? with
    | some d2 => { c1 with delim := d2, delimstack := c1.delimstack.dropLast }
    | none => { c1 with panicked := true }
  | (_, c1) => c1

/-- Source `Reader.ObjectStart`: `pushDelim('\x7b')`. -/
def Reader.ObjectStart (c : Reader) : Bool × Reader :=
  c.pushDelim 123

/-- Source `Reader.ArrayStart`: `pushDelim('[')`. -/
def Reader.ArrayStart (c : Reader) : Bool × Reader :=
  c.pushDelim 91

/-- Source `Reader.More`: true while the container has elements; when the
lookahead says no, consume the ending delimiter via `popDelim` and return false. -/
def Reader.More (c : Reader) : Bool × Reader :=
  if c.dMore then (true, c) else (false, c.popDelim)

/-- Source `Reader.Discard`: pull and drop one token; a composite (delimiter)
is unimplemented and sets a clearly labeled error. -/
def Reader.Discard (c : Reader) : Reader :=
  match c.next with
  | (some (.delim d), c1) =>
    c1.setError ("UNIMPLEMENTED json.Reader.Discard object (" ++
      String.mk [Char.ofNat d] ++ ")")
  | (_, c1) => c1

section Lemmas

@[simp] theorem wr_out (e : Builder) (bs : Bytes) : (wr e bs).out = e.out ++ bs := rfl
@[simp] theorem wr_err (e : Builder) (bs : Bytes) : (wr e bs).err = e.err := rfl
@[simp] theorem wr_state (e : Builder) (bs : Bytes) : (wr e bs).state = e.state := rfl
@[simp] theorem wr_nestdepth (e : Builder) (bs : Bytes) : (wr e bs).nestdepth = e.nestdepth := rfl
@[simp] theorem wr_keyTerm (e : Builder) (bs : Bytes) : (wr e bs).keyTerm = e.keyTerm := rfl
@[simp] theorem wr_indent (e : Builder) (bs : Bytes) : (wr e bs).indent = e.indent := rfl

@[simp] theorem writeNewLine_err (e : Builder) : e.writeNewLine.err = e.err := rfl
@[simp] theorem writeNewLine_state (e : Builder) : e.writeNewLine.state = e.state := rfl
@[simp] theorem writeNewLine_nestdepth (e : Builder) : e.writeNewLine.nestdepth = e.nestdepth := rfl

@[simp] theorem newLine_err (e : Builder) : e.newLine.err = e.err := by
  unfold Builder.newLine; split <;> rfl

@[simp] theorem newLine_state (e : Builder) : e.newLine.state = e.state := by
  unfold Builder.newLine; split <;> rfl

@[simp] theorem newLine_nestdepth (e : Builder) : e.newLine.nestdepth = e.nestdepth := by
  unfold Builder.newLine; split <;> rfl

@[simp] theorem startChunk_state (e : Builder) (n : BuilderState) :
    (e.startChunk n).state = n := by
  unfold Builder.startChunk
  cases e.state <;> dsimp <;> first | (split <;> rfl) | rfl

@[simp] theorem startChunk_err (e : Builder) (n : BuilderState) :
    (e.startChunk n).err = e.err := by
  unfold Builder.startChunk
  cases e.state <;> dsimp <;> first | (split <;> simp) | simp

@[simp] theorem startChunk_nestdepth (e : Builder) (n : BuilderState) :
    (e.startChunk n).nestdepth = e.nestdepth := by
  unfold Builder.startChunk
  cases e.state <;> dsimp <;> first | (split <;> simp) | simp

@[simp] theorem writeJsonString_out (e : Builder) (s : Bytes) :
    (e.WriteJsonString s).out = e.out ++ (34 :: escapeJson s ++ [34]) := rfl
@[simp] theorem writeJsonString_err (e : Builder) (s : Bytes) :
    (e.WriteJsonString s).err = e.err := rfl
@[simp] theorem writeJsonString_state (e : Builder) (s : Bytes) :
    (e.WriteJsonString s).state = e.state := rfl
@[simp] theorem writeJsonString_keyTerm (e : Builder) (s : Bytes) :
    (e.WriteJsonString s).keyTerm = e.keyTerm := rfl
@[simp] theorem writeJsonString_nestdepth (e : Builder) (s : Bytes) :
    (e.WriteJsonString s).nestdepth = e.nestdepth := rfl

/-- Every byte produced by the decimal digit formatter is an ASCII digit. -/
theorem natDigitsAux_digits :
    ∀ (fuel n : Nat), ∀ b ∈ natDigitsAux fuel n, 48 ≤ b ∧ b ≤ 57 := by
  intro fuel
  induction fuel with
  | zero => intro n b hb; simp [natDigitsAux] at hb
  | succ fuel ih =>
    intro n b hb
    unfold natDigitsAux at hb
    split at hb
    · rename_i h
      simp only [List.mem_singleton] at hb
      omega
    · rename_i h
      rw [List.mem_append] at hb
      rcases hb with hb | hb
      · exact ih _ b hb
      · simp only [List.mem_singleton] at hb
        have : n % 10 < 10 := Nat.mod_lt _ (by omega)
        omega

/-- Every byte of a formatted unsigned decimal is JSON-safe. -/
theorem formatUint_safe (n : Nat) : ∀ b ∈ formatUint n, jsonSafeSet b = true := by
  intro b hb
  have := natDigitsAux_digits (n + 1) n b hb
  simp only [jsonSafeSet, Bool.and_eq_true, decide_eq_true_eq, bne_iff_ne, ne_eq]
  omega

/-- Every byte of a formatted signed decimal is JSON-safe. -/
theorem formatInt_safe (v : Int) : ∀ b ∈ formatInt v, jsonSafeSet b = true := by
  intro b hb
  unfold formatInt at hb
  split at hb
  · rcases List.mem_cons.mp hb with hb | hb
    · subst hb; decide
    · exact formatUint_safe _ b hb
  · exact formatUint_safe _ b hb

/-- JSON-safe bytes pass through the escape loop unchanged. -/
theorem escapeJsonAux_safe :
    ∀ (fuel : Nat) (s : Bytes), s.length ≤ fuel →
      (∀ b ∈ s, jsonSafeSet b = true) → escapeJsonAux fuel s = s := by
  intro fuel
  induction fuel with
  | zero =>
    intro s hlen _
    cases s with
    | nil => rfl
    | cons b rest => simp at hlen
  | succ fuel ih =>
    intro s hlen hsafe
    cases s with
    | nil => rfl
    | cons b rest =>
      have hb : jsonSafeSet b = true := hsafe b (List.mem_cons_self b rest)
      have hb128 : b < 0x80 := by
        simp only [jsonSafeSet, Bool.and_eq_true, decide_eq_true_eq] at hb
        omega
      unfold escapeJsonAux
      rw [if_pos hb128, if_pos hb]
      have : escapeJsonAux fuel rest = rest :=
        ih rest (by simp only [List.length_cons] at hlen; omega)
          (fun x hx => hsafe x (List.mem_cons_of_mem _ hx))
      rw [this]
      rfl

/-- A string of JSON-safe bytes is written as itself between quotes. -/
theorem escapeJson_safe (s : Bytes) (h : ∀ b ∈ s, jsonSafeSet b = true) :
    escapeJson s = s :=
  escapeJsonAux_safe s.length s (Nat.le_refl _) h

end Lemmas

/-- C3: for every 64-bit argument, `Builder.Int` and `Builder.Uint` with
`bitsize > 32` write the decimal representation wrapped in double quotes, and
with `bitsize ≤ 32` the bare decimal, identically on both paths (the emitted
bytes follow the chunk punctuation `startChunk` inserts). -/
theorem int_uint_bitsize_quoting (e : Builder) (v : GoInt) (u : Nat) (bitsize : GoInt)
    (hlo : -(2 ^ 63) ≤ v) (hhi : v < 2 ^ 63) (hu : u < 2 ^ 64) :
    (e.Int v bitsize).out =
      (e.startChunk .value).out ++
        (if bitsize > 32 then 34 :: (formatInt v ++ [34]) else formatInt v) ∧
    (e.Uint u bitsize).out =
      (e.startChunk .value).out ++
        (if bitsize > 32 then 34 :: (formatUint u ++ [34]) else formatUint u) := by
  constructor
  · unfold Builder.Int
    by_cases h : bitsize > 32 <;>
      simp [h, escapeJson_safe _ (formatInt_safe v)]
  · unfold Builder.Uint
    by_cases h : bitsize > 32 <;>
      simp [h, escapeJson_safe _ (formatUint_safe u)]

/-- Witness for C3 at `v = 2^53 + 1`, `u = 2^64 - 1`, `bitsize = 64`. -/
theorem int_uint_bitsize_quoting_witness :
    (-(2 ^ 63) ≤ (9007199254740993 : GoInt) ∧ (9007199254740993 : GoInt) < 2 ^ 63 ∧
      (18446744073709551615 : Nat) < 2 ^ 64) ∧
    ((Builder.empty.Int 9007199254740993 64).out =
      (Builder.empty.startChunk .value).out ++
        (if (64 : GoInt) > 32 then 34 :: (formatInt 9007199254740993 ++ [34])
         else formatInt 9007199254740993) ∧
    (Builder.empty.Uint 18446744073709551615 64).out =
      (Builder.empty.startChunk .value).out ++
        (if (64 : GoInt) > 32 then 34 :: (formatUint 18446744073709551615 ++ [34])
         else formatUint 18446744073709551615)) :=
  ⟨by decide,
   int_uint_bitsize_quoting Builder.empty 9007199254740993 18446744073709551615 64
     (by decide) (by decide) (by decide)⟩

/-- C10: with `bitsize ≤ 32` both integer emitters write the full decimal of the
64-bit argument bare, perform no range validation against the stated width, and
leave the error untouched. -/
theorem int_uint_small_bitsize_no_range_check (e : Builder) (v : GoInt) (u : Nat)
    (bitsize : GoInt) (h : bitsize ≤ 32) :
    (e.Int v bitsize).out = (e.startChunk .value).out ++ formatInt v ∧
    (e.Int v bitsize).err = e.err ∧
    (e.Uint u bitsize).out = (e.startChunk .value).out ++ formatUint u ∧
    (e.Uint u bitsize).err = e.err := by
  have h' : ¬bitsize > 32 := not_lt.mpr h
  unfold Builder.Int Builder.Uint
  simp [h']

/-- Witness for C10 at `v = u = 2^40`, far outside a 32-bit range, `bitsize = 32`:
the full decimal is emitted bare with no error. -/
theorem int_uint_small_bitsize_no_range_check_witness :
    ((32 : GoInt) ≤ 32 ∧
      (Builder.empty.Int 1099511627776 32).out = strBytes "1099511627776" ∧
      (Builder.empty.Int 1099511627776 32).err = none) ∧
    ((Builder.empty.Int 1099511627776 32).out =
        (Builder.empty.startChunk .value).out ++ formatInt 1099511627776 ∧
      (Builder.empty.Int 1099511627776 32).err = Builder.empty.err ∧
      (Builder.empty.Uint 1099511627776 32).out =
        (Builder.empty.startChunk .value).out ++ formatUint 1099511627776 ∧
      (Builder.empty.Uint 1099511627776 32).err = Builder.empty.err) :=
  ⟨by decide,
   int_uint_small_bitsize_no_range_check Builder.empty 1099511627776 1099511627776 32
     (by decide)⟩

/-- C5: `End` immediately after a key always records "key without value" and still
writes the closing byte; concretely, StartObject, Key "foo", EndObject sets the
error and the output ends in the closing-brace byte 125. -/
theorem end_after_key_sets_error_and_closes (e : Builder) (k : Bytes) (kind : Nat) :
    ((e.KeyBytes k).End kind).err = some "key without value" ∧
    ((e.KeyBytes k).End kind).out = (e.KeyBytes k).out ++ [kind] ∧
    (((Builder.empty.Start 123).Key "foo").End 125).err = some "key without value" ∧
    (((Builder.empty.Start 123).Key "foo").End 125).out =
      [123, 34, 102, 111, 111, 34, 58] ++ [125] := by
  have hstate : (e.KeyBytes k).state = .key := by
    simp [Builder.KeyBytes]
  refine ⟨?_, ?_, rfl, rfl⟩
  · simp [Builder.End, hstate]
  · simp [Builder.End, hstate]

/-- C7: emitting a non-finite float records a first error whose message names the
offending value, and the call still completes structurally — the state machine
lands in the just-wrote-value state and the nesting depth is unchanged. -/
theorem float_nonfinite_sets_error_keeps_structure (e : Builder) (f : NonfiniteFloat)
    (bits : GoInt) :
    (e.FloatNonfinite f bits).err =
      (match e.err with
       | none => some ("unsupported float64 value " ++ nfName f)
       | some m => some m) ∧
    (e.FloatNonfinite f bits).state = .value ∧
    (e.FloatNonfinite f bits).nestdepth = e.nestdepth := by
  cases he : e.err <;>
    simp [Builder.FloatNonfinite, Builder.setError, he]

/-- C2 fails on the code: `Builder.End` assigns the "key without value" error
directly instead of going through `setError`, so it replaces an earlier first
error.  Here a NaN float first records "unsupported float64 value NaN", and the
later key-without-value check overwrites it. -/
theorem builder_end_overwrites_first_error :
    (Builder.empty.FloatNonfinite .nan 64).err = some "unsupported float64 value NaN" ∧
    ((((Builder.empty.FloatNonfinite .nan 64).Start 123).Key "k").End 125).err =
      some "key without value" ∧
    some "key without value" ≠ some "unsupported float64 value NaN" :=
  ⟨rfl, rfl, by decide⟩

/-- The token stream `[1,2\x7d` of claim C4, and the Reader run that consumes it:
open the array, pull the two elements, then hit the end of the container. -/
def c4Run : Bool × Reader :=
  let r0 := Reader.fresh [.delim 91, .num 1, .num 2, .delim 125]
  let s1 := r0.ArrayStart
  let m1 := s1.2.More
  let d1 := m1.2.Discard
  let m2 := d1.More
  let d2 := m2.2.Discard
  d2.More

/-- C4 fails on the code: consuming `[1,2\x7d` to the end of the container leaves
the Reader's error UNSET, because `popDelim` constructs the mismatch error with
`errExpected` but discards the returned value instead of recording it (and the
message it builds names the opener `\x7b`, computed as `d - 2`, not the expected
closer `]`).  The mismatched closing delimiter is consumed and the stack popped
as if the document were well formed. -/
theorem reader_delim_mismatch_error_dropped :
    c4Run.1 = false ∧ c4Run.2.err = none ∧ c4Run.2.toks = [] ∧
    c4Run.2.delim = 0 ∧ c4Run.2.delimstack = [] :=
  ⟨rfl, rfl, rfl, rfl, rfl⟩

/-- C8 (amended): `Builder.Reset` clears output, error, emit state and depth while
preserving `Indent` and `KeyTerm`; `Reader.Reset` installs the new token source
and empties the delimiter stack but leaves the sticky error, the current
delimiter and the last token unchanged. -/
theorem reset_clears_builder_not_reader_error (e : Builder) (r : Reader)
    (ts : List JToken) :
    e.Reset.out = [] ∧ e.Reset.err = none ∧ e.Reset.state = .init ∧
    e.Reset.nestdepth = 0 ∧ e.Reset.indent = e.indent ∧ e.Reset.keyTerm = e.keyTerm ∧
    (r.Reset ts).toks = ts ∧ (r.Reset ts).delimstack = [] ∧
    (r.Reset ts).err = r.err ∧ (r.Reset ts).delim = r.delim ∧
    (r.Reset ts).tok = r.tok :=
  ⟨rfl, rfl, rfl, rfl, rfl, rfl, rfl, rfl, rfl, rfl, rfl⟩

/-- A Reader that stopped with an error while inside an object. -/
def r8 : Reader := ⟨[], some "boom", none, [0], 123, false⟩

/-- Counterexample to C8 as stated: after `Reset` this Reader still carries its
sticky error and its stale current delimiter, so it does not process the next
document as a freshly created instance would. -/
theorem reader_reset_keeps_error_counterexample :
    (r8.Reset []).err = some "boom" ∧ (r8.Reset []).err ≠ none ∧
    (r8.Reset []).delim = 123 ∧ (r8.Reset []).delim ≠ 0 :=
  ⟨rfl, by decide, rfl, by decide⟩

/-- C9 (amended): `Reader.Key` pulls a token only when the tokenizer reports
another element pending; a pulled string is returned with the state advanced one
token; a pulled non-string sets the "expected key" structural error (if none was
recorded) and yields ""; with no element pending it pulls nothing, sets no
error, and yields "". -/
theorem reader_key_behavior (r : Reader) :
    (r.dMore = false → r.Key = ("", r)) ∧
    (∀ s rest, r.toks = JToken.str s :: rest →
      r.Key = (s, { r with toks := rest, tok := some (JToken.str s) })) ∧
    (∀ t rest, r.toks = t :: rest → (∀ s, t ≠ JToken.str s) → r.dMore = true →
      (r.Key).1 = "" ∧
      (r.Key).2.err =
        (match r.err with
         | none => some ("expected key but got " ++ tokTypeDesc (some t))
         | some m => some m)) := by
  obtain ⟨tks, er, tk, ds, dl, pk⟩ := r
  refine ⟨fun h => ?_, fun s rest htoks => ?_, fun t rest htoks hnots hdm => ?_⟩
  · simp only [Reader.Key, h, Bool.false_eq_true, if_false]
  · subst htoks
    simp [Reader.Key, Reader.dMore, Reader.next]
  · subst htoks
    cases t with
    | str s => exact absurd rfl (hnots s)
    | delim d =>
      cases er <;>
        simp_all [Reader.Key, Reader.dMore, Reader.next, Reader.setErrorExpected,
          Reader.setError, Reader.errExpected]
    | num v =>
      cases er <;>
        simp [Reader.Key, Reader.dMore, Reader.next, Reader.setErrorExpected,
          Reader.setError, Reader.errExpected]
    | boolTok b =>
      cases er <;>
        simp [Reader.Key, Reader.dMore, Reader.next, Reader.setErrorExpected,
          Reader.setError, Reader.errExpected]
    | nullTok =>
      cases er <;>
        simp [Reader.Key, Reader.dMore, Reader.next, Reader.setErrorExpected,
          Reader.setError, Reader.errExpected]

/-- Witness for C9's theorem: a pending string key is returned as is; a pending
bool token yields "" and the "expected key but got bool" error. -/
theorem reader_key_behavior_witness :
    Reader.Key (Reader.fresh [JToken.str "a"]) =
      ("a", { Reader.fresh [JToken.str "a"] with toks := [], tok := some (JToken.str "a") }) ∧
    (Reader.Key (Reader.fresh [JToken.boolTok true])).1 = "" ∧
    (Reader.Key (Reader.fresh [JToken.boolTok true])).2.err =
      some "expected key but got bool" := by
  refine ⟨(reader_key_behavior (Reader.fresh [JToken.str "a"])).2.1 "a" [] rfl, ?_, ?_⟩
  · exact ((reader_key_behavior (Reader.fresh [JToken.boolTok true])).2.2
      (JToken.boolTok true) [] rfl (fun s h => by cases h) rfl).1
  · exact (((reader_key_behavior (Reader.fresh [JToken.boolTok true])).2.2
      (JToken.boolTok true) [] rfl (fun s h => by cases h) rfl).2).trans (by decide)

/-- A Reader inside an object whose next token is the closing `\x7d`: no further
element is pending. -/
def r9 : Reader := ⟨[JToken.delim 125], none, none, [0], 123, false⟩

/-- Counterexample to C9 as stated: called with no further element pending,
`Reader.Key` returns "" and leaves the Reader — including its unset error —
completely unchanged, instead of setting a structural error. -/
theorem reader_key_no_pending_no_error :
    (r9.Key).1 = "" ∧ (r9.Key).2 = r9 ∧ (r9.Key).2.err = none ∧ r9.err = none :=
  ⟨rfl, rfl, rfl, rfl⟩
